import Mathlib

/-!
Verification of the layer-geometry and alignment core of the image-aligner
component (src/unnamed/part_000).  JavaScript numbers are modelled as exact
rationals (ℚ); the opaque string layer ids and object-URL image handles are
modelled as naturals; React `useState`/`useRef` cells are gathered into one
explicit `AlignerState` record and every event handler becomes a pure state
transition.  Deep copies of immutable values are the identity, so the
snapshot taken by `pushHistory` (which copies every layer and its refs and
normalises `visible` with `l.visible !== false`, an identity on booleans) is
simply the current layer list.
-/


/-- The five normalized reference points of a layer (type LayerRefs,
part_000 lines 20-28). -/
structure LayerRefs where
  bodyTopY : ℚ
  faceBottomY : ℚ
  bodyBottomY : ℚ
  eyeLeftX : ℚ
  eyeLeftY : ℚ
  eyeRightX : ℚ
  eyeRightY : ℚ
deriving DecidableEq, Repr

/-- One image layer (type ImageLayer, part_000 lines 30-40).  `id` and `src`
are opaque handles, modelled as naturals. -/
structure ImageLayer where
  id : Nat
  src : Nat
  x : ℚ
  y : ℚ
  width : ℚ
  height : ℚ
  aspectRatio : ℚ
  visible : Bool
  refs : Option LayerRefs
deriving DecidableEq, Repr

instance : Inhabited ImageLayer := ⟨⟨0, 0, 0, 0, 0, 0, 1, true, none⟩⟩

/-- A point in canvas pixel space. -/
structure CanvasPoint where
  x : ℚ
  y : ℚ
deriving DecidableEq, Repr

/-- Convert image-space (0-1) coords to canvas coords under object-contain
letterboxing (function imageToCanvas, part_000 lines 47-63). -/
def imageToCanvas (layer : ImageLayer) (u v : ℚ) : CanvasPoint :=
  let R := layer.aspectRatio
  let divRatio := layer.width / layer.height
  if divRatio > R then
    let imgW := layer.height * R
    let left := (layer.width - imgW) / 2
    ⟨layer.x + left + u * imgW, layer.y + v * layer.height⟩
  else
    let imgH := layer.width / R
    let top := (layer.height - imgH) / 2
    ⟨layer.x + u * layer.width, layer.y + top + v * imgH⟩

/-- Default reference points used when a layer has none (function
defaultRefs, part_000 lines 643-653). -/
def defaultRefs : LayerRefs where
  bodyTopY := 1/5
  faceBottomY := 1/2
  bodyBottomY := 4/5
  eyeLeftX := 7/20
  eyeLeftY := 9/20
  eyeRightX := 13/20
  eyeRightY := 9/20

/-- The refs of a layer, defaulted when absent: the `layer.refs ??
defaultRefs()` idiom of part_000 lines 660 and 680. -/
def refsOf (layer : ImageLayer) : LayerRefs :=
  layer.refs.getD defaultRefs

/-- One of the eight resize handles (constant RESIZE_HANDLES, part_000
line 44). -/
inductive Handle where
  | n | s | e | w | nw | ne | sw | se
deriving DecidableEq, Repr

/-- Whether the handle name includes the letter e (`resizeHandle.includes`
in part_000 line 469). -/
def Handle.hasE : Handle → Bool
  | .e | .ne | .se => true
  | _ => false

/-- Whether the handle name includes the letter w. -/
def Handle.hasW : Handle → Bool
  | .w | .nw | .sw => true
  | _ => false

/-- Whether the handle name includes the letter s. -/
def Handle.hasS : Handle → Bool
  | .s | .sw | .se => true
  | _ => false

/-- Whether the handle name includes the letter n. -/
def Handle.hasN : Handle → Bool
  | .n | .nw | .ne => true
  | _ => false

/-- Whether the handle name has two characters (`resizeHandle.length === 2`,
part_000 line 486). -/
def Handle.isCorner : Handle → Bool
  | .nw | .ne | .sw | .se => true
  | _ => false

/-- The gesture-start snapshot captured on resize mouse-down (ref
resizeStart, part_000 lines 132-139). -/
structure ResizeStart where
  mouseX : ℚ
  mouseY : ℚ
  width : ℚ
  height : ℚ
  x : ℚ
  y : ℚ
deriving DecidableEq, Repr

/-- A layer bounding box. -/
structure Geometry where
  x : ℚ
  y : ℚ
  width : ℚ
  height : ℚ
deriving DecidableEq, Repr

/-- The geometry produced by the resize branch of handleMouseMove (part_000
lines 455-501): sequential reassignment of width/height/x/y is modelled by
the chained lets, exactly in source order, including the corner
aspect-ratio lock that overwrites the secondary dimension after the
minimum-size clamp. -/
def applyResize (start : ResizeStart) (handle : Handle) (ratio dx dy : ℚ) : Geometry :=
  let minSize : ℚ := 50
  let w1 := if handle.hasE then max minSize (start.width + dx) else start.width
  let w2 := if handle.hasW then max minSize (start.width - dx) else w1
  let x1 := if handle.hasW then start.x + start.width - w2 else start.x
  let h1 := if handle.hasS then max minSize (start.height + dy) else start.height
  let h2 := if handle.hasN then max minSize (start.height - dy) else h1
  let y1 := if handle.hasN then start.y + start.height - h2 else start.y
  if handle.isCorner then
    if handle.hasE || handle.hasW then
      let h3 := w2 / ratio
      let y2 := if handle.hasN then start.y + start.height - h3 else y1
      ⟨x1, y2, w2, h3⟩
    else
      let w3 := h2 * ratio
      let x2 := if handle.hasW then start.x + start.width - w3 else x1
      ⟨x2, y1, w3, h2⟩
  else ⟨x1, y1, w2, h2⟩

/-- The mutable cells of the ImageAligner component that the core claims
concern (part_000 lines 105-146), gathered into one record: the live layer
list, selection, the align-wizard cursor, the aggregated alignment warning
(modelled as the list of 1-based layer numbers the joined warning string
names), the gesture flags and snapshots, and the bounded history stack
(newest snapshot last, as in the JS array push/pop/shift usage). -/
structure AlignerState where
  layers : List ImageLayer
  selectedId : Option Nat
  alignModalOpen : Bool
  alignModalLayerIndex : Nat
  alignModalStep : Nat
  alignWarning : Option (List Nat)
  canUndo : Bool
  isDragging : Bool
  isResizing : Bool
  resizeHandle : Option Handle
  dragOffset : ℚ × ℚ
  resizeStart : ResizeStart
  history : List (List ImageLayer)
  pendingUndoState : Option (List ImageLayer)
deriving DecidableEq, Repr

/-- History capacity (constant MAX_HISTORY, part_000 line 152). -/
def MAX_HISTORY : Nat := 50

/-- Push a snapshot, then drop the oldest entry if the stack overflows
(the body shared by pushHistory, part_000 lines 154-163, and handleMouseUp,
lines 525-528). -/
def pushHistoryList (h : List (List ImageLayer)) (snap : List ImageLayer) :
    List (List ImageLayer) :=
  let pushed := h ++ [snap]
  if MAX_HISTORY < pushed.length then pushed.tail else pushed

/-- Checkpoint the live layer list (function pushHistory, part_000 lines
154-165; the per-layer deep copy with `visible: l.visible !== false` is the
identity on this immutable model). -/
def pushHistory (s : AlignerState) : AlignerState :=
  { s with history := pushHistoryList s.history s.layers, canUndo := true }

/-- Pop the most recent snapshot and restore it wholesale (function undo,
part_000 lines 167-172). -/
def undo (s : AlignerState) : AlignerState :=
  match s.history.getLast? with
  | none => s
  | some prev =>
      { s with layers := prev, history := s.history.dropLast,
               canUndo := decide (s.history.dropLast.length > 0) }

/-- Append freshly imported layers after a checkpoint (function addImages,
part_000 lines 234-279).  The accepted-MIME filter and object-URL creation
are external; `files` stands for the layers built from the accepted files,
and the guard models `fileArray.length === 0`.  The asynchronous onload
geometry correction happens outside this mutation and is not checkpointed. -/
def addImages (s : AlignerState) (files : List ImageLayer) : AlignerState :=
  if files.isEmpty then s
  else
    let s' := pushHistory s
    { s' with layers := s'.layers ++ files }

/-- Direction argument of handleMoveLayer. -/
inductive MoveDir where
  | up | down
deriving DecidableEq, Repr

/-- The neighbour index handleMoveLayer targets (part_000 line 305). -/
def moveTarget (index : Nat) (d : MoveDir) : Int :=
  match d with
  | .up => (index : Int) + 1
  | .down => (index : Int) - 1

/-- Swap two in-range positions of a list (the destructuring swap on
part_000 line 310). -/
def listSwap (l : List ImageLayer) (i j : Nat) : List ImageLayer :=
  match l.get? i, l.get? j with
  | some a, some b => (l.set i b).set j a
  | _, _ => l

/-- Swap a layer with its neighbour (function handleMoveLayer, part_000
lines 304-313): no-op at the bounds, otherwise checkpoint then swap. -/
def handleMoveLayer (s : AlignerState) (index : Nat) (d : MoveDir) : AlignerState :=
  let newIndex := moveTarget index d
  if newIndex < 0 ∨ (s.layers.length : Int) ≤ newIndex then s
  else
    let s' := pushHistory s
    { s' with layers := listSwap s'.layers index newIndex.toNat }

/-- Move a layer from one index to another (function handleLayerReorder,
part_000 lines 315-324): no-op when the indices agree, otherwise checkpoint
then splice out and reinsert.  Callers guard `fromIdx` in range (line 348),
so the out-of-range splice (which would insert `undefined`) is unreachable
and modelled as keeping the list. -/
def handleLayerReorder (s : AlignerState) (fromIdx toIdx : Nat) : AlignerState :=
  if fromIdx = toIdx then s
  else
    let s' := pushHistory s
    match s'.layers.get? fromIdx with
    | none => s'
    | some moved => { s' with layers := (s'.layers.eraseIdx fromIdx).insertIdx toIdx moved }

/-- Toggle one layer's visibility after a checkpoint (function
handleToggleLayerVisibility, part_000 lines 355-365; the new value is
`l.visible === false`). -/
def handleToggleLayerVisibility (s : AlignerState) (layerId : Nat) : AlignerState :=
  let s' := pushHistory s
  { s' with layers := s'.layers.map (fun l =>
      if l.id == layerId then { l with visible := l.visible == false } else l) }

/-- Remove the selected layer after a checkpoint (function
handleRemoveLayer, part_000 lines 367-372): no-op when nothing is
selected. -/
def handleRemoveLayer (s : AlignerState) : AlignerState :=
  match s.selectedId with
  | none => s
  | some sel =>
      let s' := pushHistory s
      { s' with layers := s'.layers.filter (fun l => l.id != sel), selectedId := none }

/-- Begin a layer drag (function handleLayerMouseDown, part_000 lines
383-400): ignored while the wizard is open; otherwise select, stash the
pre-gesture layer list in pendingUndoStateRef, record the pointer offset
and raise the dragging flag. -/
def handleLayerMouseDown (s : AlignerState) (id : Nat) (clientX clientY : ℚ) :
    AlignerState :=
  if s.alignModalOpen then s
  else
    match s.layers.find? (fun l => l.id == id) with
    | none => { s with selectedId := some id }
    | some layer =>
        { s with selectedId := some id,
                 pendingUndoState := some s.layers,
                 dragOffset := (clientX - layer.x, clientY - layer.y),
                 isDragging := true }

/-- Begin a resize (function handleResizeMouseDown, part_000 lines 402-422):
select, stash the pre-gesture layer list, raise the resizing flag and
snapshot the starting geometry and pointer. -/
def handleResizeMouseDown (s : AlignerState) (id : Nat) (handle : Handle)
    (clientX clientY : ℚ) : AlignerState :=
  match s.layers.find? (fun l => l.id == id) with
  | none => { s with selectedId := some id }
  | some layer =>
      { s with selectedId := some id,
               pendingUndoState := some s.layers,
               isResizing := true,
               resizeHandle := some handle,
               resizeStart := ⟨clientX, clientY, layer.width, layer.height, layer.x, layer.y⟩ }

/-- Pointer movement during a gesture (function handleMouseMove, part_000
lines 424-521, omitting the guide-line branch, which touches only guide
positions, never layers or history): a resize recomputes the selected
layer's geometry from the gesture-start snapshot via `applyResize`; a drag
repositions it preserving the captured offset. -/
def handleMouseMove (s : AlignerState) (clientX clientY : ℚ) : AlignerState :=
  if s.isResizing then
    match s.selectedId, s.resizeHandle with
    | some sel, some handle =>
        let start := s.resizeStart
        let dx := clientX - start.mouseX
        let dy := clientY - start.mouseY
        { s with layers := s.layers.map (fun l =>
            if l.id == sel then
              let g := applyResize start handle l.aspectRatio dx dy
              { l with x := g.x, y := g.y, width := g.width, height := g.height }
            else l) }
    | _, _ => s
  else if s.isDragging then
    match s.selectedId with
    | some sel =>
        { s with layers := s.layers.map (fun l =>
            if l.id == sel then
              { l with x := clientX - s.dragOffset.1, y := clientY - s.dragOffset.2 }
            else l) }
    | none => s
  else s

/-- End of a gesture (function handleMouseUp, part_000 lines 523-536): if a
drag or resize was active and a pre-gesture snapshot is pending, commit it
to the history (with the same overflow eviction as pushHistory), then clear
all gesture state. -/
def handleMouseUp (s : AlignerState) : AlignerState :=
  let s1 :=
    if s.isDragging || s.isResizing then
      match s.pendingUndoState with
      | some pending =>
          { s with history := pushHistoryList s.history pending,
                   canUndo := true,
                   pendingUndoState := none }
      | none => s
    else s
  { s1 with isDragging := false, isResizing := false, resizeHandle := none }

/-- Write the current wizard step's field(s) into a refs record (the stepKeys
dispatch of handleAlignModalCanvasClick, part_000 lines 562-585): steps 0-2
write the clamped Y into bodyTopY / faceBottomY / bodyBottomY, steps 3-4
write both clamped coordinates of the corresponding eye.  An out-of-range
step matches no key and leaves the record as copied. -/
def applyStep (step : Nat) (clampedX clampedY : ℚ) (refs : LayerRefs) : LayerRefs :=
  if step = 0 then { refs with bodyTopY := clampedY }
  else if step = 1 then { refs with faceBottomY := clampedY }
  else if step = 2 then { refs with bodyBottomY := clampedY }
  else if step = 3 then { refs with eyeLeftX := clampedX, eyeLeftY := clampedY }
  else if step = 4 then { refs with eyeRightX := clampedX, eyeRightY := clampedY }
  else refs

/-- A wizard click (function handleAlignModalCanvasClick, part_000 lines
550-599): guarded on the modal being open and the indexed layer existing;
the pointer position, already normalized to the per-layer canvas
(`localX`/`localY`, lines 556-557), is clamped to [0,1] and recorded into
the current layer's refs (lazily defaulted), then the step or layer cursor
advances.  No history checkpoint is taken. -/
def handleAlignModalCanvasClick (s : AlignerState) (localX localY : ℚ) : AlignerState :=
  if s.alignModalOpen = false then s
  else
    match s.layers.get? s.alignModalLayerIndex with
    | none => s
    | some cur =>
        let clampedX := max 0 (min 1 localX)
        let clampedY := max 0 (min 1 localY)
        let newLayers := s.layers.map (fun l =>
          if l.id == cur.id then
            { l with refs := some (applyStep s.alignModalStep clampedX clampedY (refsOf l)) }
          else l)
        let s1 : AlignerState := { s with layers := newLayers }
        if s1.alignModalStep < 4 then { s1 with alignModalStep := s1.alignModalStep + 1 }
        else if s1.alignModalLayerIndex < s1.layers.length - 1 then
          { s1 with alignModalLayerIndex := s1.alignModalLayerIndex + 1, alignModalStep := 0 }
        else s1

/-- The canvas positions and spans derived from the reference layer at the
start of runAutoAlign (part_000 lines 659-673). -/
structure RefComputed where
  refRefs : LayerRefs
  refEyeSpanX : ℚ
  refBodyFaceSpanY : ℚ
  refBodySpanY : ℚ
  refEyeCenterX : ℚ
  refBodyFaceMidY : ℚ
  refBodyBottomY : ℚ
deriving DecidableEq, Repr

/-- Compute `RefComputed` from the reference layer exactly as runAutoAlign
does (part_000 lines 659-673). -/
def computeRef (refLayer : ImageLayer) : RefComputed :=
  let refRefs := refsOf refLayer
  let refEyeLeft := imageToCanvas refLayer refRefs.eyeLeftX refRefs.eyeLeftY
  let refEyeRight := imageToCanvas refLayer refRefs.eyeRightX refRefs.eyeRightY
  let refBodyTop := imageToCanvas refLayer (1/2) refRefs.bodyTopY
  let refFaceBottom := imageToCanvas refLayer (1/2) refRefs.faceBottomY
  let refBodyBottom := imageToCanvas refLayer (1/2) refRefs.bodyBottomY
  { refRefs := refRefs
    refEyeSpanX := refEyeRight.x - refEyeLeft.x
    refBodyFaceSpanY := refFaceBottom.y - refBodyTop.y
    refBodySpanY := refBodyBottom.y - refBodyTop.y
    refEyeCenterX := (refEyeLeft.x + refEyeRight.x) / 2
    refBodyFaceMidY := (refBodyTop.y + refFaceBottom.y) / 2
    refBodyBottomY := refBodyBottom.y }

/-- The per-layer body of the runAutoAlign map (part_000 lines 678-739):
layer 0 and degenerately-marked layers pass through untouched; otherwise
the new width/height are solved from the reference spans, the new position
inverts the letterbox rule for the new geometry, and the optional
consistency check flags the layer.  The returned option carries the 1-based
layer number the pushed warning string would name (`Layer ${idx + 1}`). -/
def alignOne (rc : RefComputed) (idx : Nat) (layer : ImageLayer) :
    ImageLayer × Option Nat :=
  if idx = 0 then (layer, none)
  else
    let refs := refsOf layer
    let dxEye := refs.eyeRightX - refs.eyeLeftX
    let dyFaceBody := refs.faceBottomY - refs.bodyTopY
    let dyBody := refs.bodyBottomY - refs.bodyTopY
    if |dxEye| < 1/100 then (layer, none)
    else if |dyFaceBody| < 1/100 then (layer, none)
    else
      let eyeCenterFrac := (refs.eyeLeftX + refs.eyeRightX) / 2
      let bodyFaceMidFrac := (refs.bodyTopY + refs.faceBottomY) / 2
      let newWidth := rc.refEyeSpanX / dxEye
      let newHeight := rc.refBodyFaceSpanY / dyFaceBody
      let divRatio := newWidth / newHeight
      let R := layer.aspectRatio
      let pos : ℚ × ℚ :=
        if divRatio > R then
          let imgW := newHeight * R
          let left := (newWidth - imgW) / 2
          (rc.refEyeCenterX - left - eyeCenterFrac * imgW,
           rc.refBodyFaceMidY - bodyFaceMidFrac * newHeight)
        else
          let imgH := newWidth / R
          let top := (newHeight - imgH) / 2
          (rc.refEyeCenterX - eyeCenterFrac * newWidth,
           rc.refBodyFaceMidY - top - bodyFaceMidFrac * imgH)
      let flagged : Bool :=
        if 1/100 ≤ |dyBody| then
          let resultLayer :=
            { layer with x := pos.1, y := pos.2, width := newWidth, height := newHeight }
          let ourBodyBottom := (imageToCanvas resultLayer (1/2) refs.bodyBottomY).y
          let bodyBottomGap := |ourBodyBottom - rc.refBodyBottomY|
          let refFaceToBody := (rc.refRefs.faceBottomY - rc.refRefs.bodyTopY) /
            (rc.refRefs.bodyBottomY - rc.refRefs.bodyTopY)
          let layerFaceToBody := dyFaceBody / dyBody
          decide (min rc.refBodySpanY 50 * (1/5) < bodyBottomGap) ||
            decide ((3/20 : ℚ) < |refFaceToBody - layerFaceToBody|)
        else false
      ({ layer with x := pos.1, y := pos.2, width := newWidth, height := newHeight },
       if flagged then some (idx + 1) else none)

/-- The indexed map of runAutoAlign's setLayers callback (part_000 line
678): `prev.map((layer, idx) => ...)` as a recursion carrying the index. -/
def alignAll (rc : RefComputed) : Nat → List ImageLayer → List (ImageLayer × Option Nat)
  | _, [] => []
  | idx, l :: ls => alignOne rc idx l :: alignAll rc (idx + 1) ls

/-- The pure core of runAutoAlign: the new layer list together with the
collected warnings (part_000 lines 659-741). -/
def runAutoAlignCore (layers : List ImageLayer) : List ImageLayer × List Nat :=
  match layers.head? with
  | none => (layers, [])
  | some refLayer =>
      let rc := computeRef refLayer
      let results := alignAll rc 0 layers
      (results.map Prod.fst, results.filterMap Prod.snd)

/-- Batch alignment (function runAutoAlign, part_000 lines 655-745): a no-op
below two layers; otherwise clear the warning, take one checkpoint for the
whole batch, rewrite every non-reference layer's geometry, surface the
joined warnings if any, and close the wizard. -/
def runAutoAlign (s : AlignerState) : AlignerState :=
  if s.layers.length < 2 then s
  else
    let s1 : AlignerState := { s with alignWarning := none }
    let s2 := pushHistory s1
    let res := runAutoAlignCore s2.layers
    { s2 with layers := res.1,
              alignWarning := if res.2.isEmpty then s2.alignWarning else some res.2,
              alignModalOpen := false }

/-- Deselect on a canvas background click (function handleCanvasClick,
part_000 lines 538-540). -/
def handleCanvasClick (s : AlignerState) : AlignerState :=
  { s with selectedId := none }

/-- Select a layer by clicking it (function handleLayerClick, part_000
lines 634-641): ignored while the wizard is open. -/
def handleLayerClick (s : AlignerState) (id : Nat) : AlignerState :=
  if s.alignModalOpen then s else { s with selectedId := some id }

/-- Open the align wizard (function handleAutoAlignClick, part_000 lines
747-753): requires at least one layer; clears the warning and resets the
wizard cursor. -/
def handleAutoAlignClick (s : AlignerState) : AlignerState :=
  if s.layers.length < 1 then s
  else
    { s with alignWarning := none, alignModalOpen := true,
             alignModalLayerIndex := 0, alignModalStep := 0 }

/-- Advance the wizard cursor without recording (function
handleAlignModalNext, part_000 lines 616-623). -/
def handleAlignModalNext (s : AlignerState) : AlignerState :=
  if s.alignModalStep < 4 then { s with alignModalStep := s.alignModalStep + 1 }
  else if s.alignModalLayerIndex < s.layers.length - 1 then
    { s with alignModalLayerIndex := s.alignModalLayerIndex + 1, alignModalStep := 0 }
  else s

/-- Step the wizard cursor backwards (function handleAlignModalPrev,
part_000 lines 625-632). -/
def handleAlignModalPrev (s : AlignerState) : AlignerState :=
  if 0 < s.alignModalStep then { s with alignModalStep := s.alignModalStep - 1 }
  else if 0 < s.alignModalLayerIndex then
    { s with alignModalLayerIndex := s.alignModalLayerIndex - 1, alignModalStep := 4 }
  else s

/-- Every mutation the component can perform on the shared state, as an
abstract event: the argument of each constructor is the payload of the
corresponding handler. -/
inductive AlignerOp where
  | add (files : List ImageLayer)
  | move (index : Nat) (d : MoveDir)
  | reorder (fromIdx toIdx : Nat)
  | toggleVisibility (layerId : Nat)
  | removeSelected
  | canvasClick
  | layerClick (id : Nat)
  | layerMouseDown (id : Nat) (cx cy : ℚ)
  | resizeMouseDown (id : Nat) (handle : Handle) (cx cy : ℚ)
  | mouseMove (cx cy : ℚ)
  | mouseUp
  | wizardOpen
  | wizardClick (lx ly : ℚ)
  | wizardNext
  | wizardPrev
  | autoAlign
  | undoOp
deriving DecidableEq, Repr

/-- Dispatch an abstract event to its handler. -/
def stepOp (s : AlignerState) (op : AlignerOp) : AlignerState :=
  match op with
  | .add files => addImages s files
  | .move index d => handleMoveLayer s index d
  | .reorder i j => handleLayerReorder s i j
  | .toggleVisibility layerId => handleToggleLayerVisibility s layerId
  | .removeSelected => handleRemoveLayer s
  | .canvasClick => handleCanvasClick s
  | .layerClick id => handleLayerClick s id
  | .layerMouseDown id cx cy => handleLayerMouseDown s id cx cy
  | .resizeMouseDown id handle cx cy => handleResizeMouseDown s id handle cx cy
  | .mouseMove cx cy => handleMouseMove s cx cy
  | .mouseUp => handleMouseUp s
  | .wizardOpen => handleAutoAlignClick s
  | .wizardClick lx ly => handleAlignModalCanvasClick s lx ly
  | .wizardNext => handleAlignModalNext s
  | .wizardPrev => handleAlignModalPrev s
  | .autoAlign => runAutoAlign s
  | .undoOp => undo s

/-- The component's initial state: no layers, no history, nothing selected,
wizard closed (part_000 lines 105-146 initialisers). -/
def initialState : AlignerState where
  layers := []
  selectedId := none
  alignModalOpen := false
  alignModalLayerIndex := 0
  alignModalStep := 0
  alignWarning := none
  canUndo := false
  isDragging := false
  isResizing := false
  resizeHandle := none
  dragOffset := (0, 0)
  resizeStart := ⟨0, 0, 0, 0, 0, 0⟩
  history := []
  pendingUndoState := none

/-- A sample square layer. -/
def layerA : ImageLayer := ⟨1, 1, 0, 0, 100, 100, 1, true, none⟩

/-- A second sample square layer. -/
def layerB : ImageLayer := ⟨2, 2, 0, 0, 200, 200, 1, true, none⟩

/-- A state mid-wizard: one layer, and one history snapshot (the empty
pre-import state) left by the earlier addImages checkpoint. -/
def wizardState : AlignerState :=
  { initialState with layers := [layerA], history := [[]], alignModalOpen := true }

/-- A two-layer state with the first layer selected, used to evaluate the
mutation theorems on concrete inputs. -/
def gestureState : AlignerState :=
  { initialState with layers := [layerA, layerB], selectedId := some 1 }

/-- A layer whose marked eyes coincide horizontally (zero eye span). -/
def degenerateLayer : ImageLayer :=
  ⟨3, 3, 5, 6, 120, 80, 1, true, some ⟨1/5, 1/2, 4/5, 1/2, 9/20, 1/2, 9/20⟩⟩

/-- A two-layer state whose second layer has degenerate eye marks. -/
def degenState : AlignerState :=
  { initialState with layers := [layerA, degenerateLayer] }

/-- A one-layer state. -/
def singleState : AlignerState := { initialState with layers := [layerA] }

/-- A two-layer state with the wizard open on layer 0, step 3. -/
def wizardState2 : AlignerState :=
  { initialState with
    layers := [layerA, layerB]
    alignModalOpen := true
    alignModalLayerIndex := 0
    alignModalStep := 3 }

/-- C5: for every layer with positive width, height and aspect ratio,
`imageToCanvas` at (1/2, 1/2) is the exact center of the layer's bounding
box, in both letterbox branches. -/
theorem imageToCanvas_center (layer : ImageLayer)
    (hw : 0 < layer.width) (hh : 0 < layer.height) (hr : 0 < layer.aspectRatio) :
    (imageToCanvas layer (1/2) (1/2)).x = layer.x + layer.width / 2 ∧
    (imageToCanvas layer (1/2) (1/2)).y = layer.y + layer.height / 2 := by
  unfold imageToCanvas
  simp only []
  split_ifs <;> constructor <;> simp <;> ring

/-- Witness for C5: the center property evaluated on a concrete 300 by 200
layer with aspect ratio 3/2. -/
theorem imageToCanvas_center_witness :
    (0 : ℚ) < 300 ∧ (0 : ℚ) < 200 ∧ (0 : ℚ) < 3/2 ∧
    ((imageToCanvas ⟨1, 1, 10, 20, 300, 200, 3/2, true, none⟩ (1/2) (1/2)).x = 10 + 300 / 2 ∧
     (imageToCanvas ⟨1, 1, 10, 20, 300, 200, 3/2, true, none⟩ (1/2) (1/2)).y = 20 + 200 / 2) :=
  ⟨by norm_num, by norm_num, by norm_num,
   imageToCanvas_center ⟨1, 1, 10, 20, 300, 200, 3/2, true, none⟩
     (by norm_num) (by norm_num) (by norm_num)⟩

/-- C2 counterexample: a south-east corner resize of a 200 by 100 layer with
aspect ratio 2, pointer moved 150px left, clamps width to 50 and then the
aspect lock sets height to 25, below the 50px floor the claim states. -/
theorem corner_resize_min_counterexample :
    (applyResize ⟨0, 0, 200, 100, 0, 0⟩ Handle.se 2 (-150) 0).height = 25 ∧
    ¬ (50 ≤ (applyResize ⟨0, 0, 200, 100, 0, 0⟩ Handle.se 2 (-150) 0).width ∧
       50 ≤ (applyResize ⟨0, 0, 200, 100, 0, 0⟩ Handle.se 2 (-150) 0).height) := by
  have hval : applyResize ⟨0, 0, 200, 100, 0, 0⟩ Handle.se 2 (-150) 0 = ⟨0, 0, 50, 25⟩ := by
    simp [applyResize, Handle.hasE, Handle.hasW, Handle.hasS, Handle.hasN, Handle.isCorner]
    norm_num
  rw [hval]
  norm_num

/-- C2 amended: an edge resize keeps both dimensions at or above the 50px
floor whenever they start there (the adjusted dimension is clamped, the
other is untouched); a corner resize clamps width to at least 50 but then
sets height to width divided by the aspect ratio, which can be below 50. -/
theorem resize_min_size_amended (start : ResizeStart) (handle : Handle) (ratio dx dy : ℚ) :
    (handle.isCorner = false → 50 ≤ start.width → 50 ≤ start.height →
      50 ≤ (applyResize start handle ratio dx dy).width ∧
      50 ≤ (applyResize start handle ratio dx dy).height) ∧
    (handle.isCorner = true →
      50 ≤ (applyResize start handle ratio dx dy).width ∧
      (applyResize start handle ratio dx dy).height =
        (applyResize start handle ratio dx dy).width / ratio) := by
  constructor
  · intro hc hw hh
    cases handle <;> simp_all [applyResize, Handle.hasE, Handle.hasW, Handle.hasS,
      Handle.hasN, Handle.isCorner]
  · intro hc
    cases handle <;> simp_all [applyResize, Handle.hasE, Handle.hasW, Handle.hasS,
      Handle.hasN, Handle.isCorner]

/-- Witness for C2's amended theorem: evaluated for an east edge resize and
a south-east corner resize of a 200 by 100 layer with aspect ratio 2. -/
theorem resize_min_size_amended_witness :
    (Handle.e.isCorner = false ∧ (50 : ℚ) ≤ 200 ∧ (50 : ℚ) ≤ 100 ∧
      50 ≤ (applyResize ⟨0, 0, 200, 100, 0, 0⟩ Handle.e 2 30 0).width ∧
      50 ≤ (applyResize ⟨0, 0, 200, 100, 0, 0⟩ Handle.e 2 30 0).height) ∧
    (Handle.se.isCorner = true ∧
      50 ≤ (applyResize ⟨0, 0, 200, 100, 0, 0⟩ Handle.se 2 30 20).width ∧
      (applyResize ⟨0, 0, 200, 100, 0, 0⟩ Handle.se 2 30 20).height =
        (applyResize ⟨0, 0, 200, 100, 0, 0⟩ Handle.se 2 30 20).width / 2) :=
  ⟨⟨rfl, by norm_num, by norm_num,
    (resize_min_size_amended ⟨0, 0, 200, 100, 0, 0⟩ Handle.e 2 30 0).1 rfl
      (by norm_num) (by norm_num)⟩,
   ⟨rfl, (resize_min_size_amended ⟨0, 0, 200, 100, 0, 0⟩ Handle.se 2 30 20).2 rfl⟩⟩

/-- C6: every corner resize produces a geometry whose width over height
equals the layer's aspect ratio exactly (the lock sets height to
width / ratio after clamping width to at least 50). -/
theorem corner_resize_aspect (start : ResizeStart) (handle : Handle) (ratio dx dy : ℚ)
    (hc : handle.isCorner = true) (hr : 0 < ratio) :
    (applyResize start handle ratio dx dy).width /
      (applyResize start handle ratio dx dy).height = ratio := by
  have key : ∀ w : ℚ, 0 < w → w / (w / ratio) = ratio := by
    intro w hw
    rw [div_div_eq_mul_div, mul_comm, mul_div_assoc, div_self (ne_of_gt hw), mul_one]
  have hfifty : ∀ q : ℚ, (0 : ℚ) < max 50 q :=
    fun q => lt_of_lt_of_le (by norm_num) (le_max_left _ _)
  cases handle <;> simp_all [applyResize, Handle.hasE, Handle.hasW, Handle.hasS,
    Handle.hasN, Handle.isCorner] <;> exact key _ (hfifty _)

/-- Witness for C6: a north-west corner resize of a 200 by 100 layer with
aspect ratio 2 ends with width / height = 2. -/
theorem corner_resize_aspect_witness :
    Handle.nw.isCorner = true ∧ (0 : ℚ) < 2 ∧
    (applyResize ⟨0, 0, 200, 100, 0, 0⟩ Handle.nw 2 40 (-10)).width /
      (applyResize ⟨0, 0, 200, 100, 0, 0⟩ Handle.nw 2 40 (-10)).height = 2 :=
  ⟨rfl, by norm_num,
   corner_resize_aspect ⟨0, 0, 200, 100, 0, 0⟩ Handle.nw 2 40 (-10) rfl (by norm_num)⟩

/-- The newest entry of the stack after a push is the pushed snapshot, even
when the overflow eviction drops the oldest entry. -/
theorem getLast?_pushHistoryList (h : List (List ImageLayer)) (snap : List ImageLayer) :
    (pushHistoryList h snap).getLast? = some snap := by
  unfold pushHistoryList
  simp only []
  split_ifs with hlen
  · cases h with
    | nil => norm_num [MAX_HISTORY] at hlen
    | cons a t =>
        show (t ++ [snap]).getLast? = some snap
        exact List.getLast?_concat _
  · exact List.getLast?_concat _

/-- Undoing any state whose history was just pushed with snapshot `pre`
restores `pre` as the live layer list. -/
theorem undo_layers_eq (t : AlignerState) (pre : List ImageLayer)
    (snaps : List (List ImageLayer)) (ht : t.history = pushHistoryList snaps pre) :
    (undo t).layers = pre := by
  simp [undo, ht, getLast?_pushHistoryList]

/-- A push keeps the stack within capacity. -/
theorem length_pushHistoryList_le (h : List (List ImageLayer)) (snap : List ImageLayer)
    (hle : h.length ≤ MAX_HISTORY) :
    (pushHistoryList h snap).length ≤ MAX_HISTORY := by
  unfold pushHistoryList
  simp only []
  split_ifs with hlen
  · simp only [List.length_tail, List.length_append, List.length_singleton]
    omega
  · simp only [List.length_append, List.length_singleton] at hlen ⊢
    omega

/-- Pointer movement during a gesture never touches the history, the
pending snapshot or the gesture flags. -/
theorem handleMouseMove_gesture_frame (t : AlignerState) (cx cy : ℚ) :
    (handleMouseMove t cx cy).history = t.history ∧
    (handleMouseMove t cx cy).pendingUndoState = t.pendingUndoState ∧
    (handleMouseMove t cx cy).isDragging = t.isDragging ∧
    (handleMouseMove t cx cy).isResizing = t.isResizing := by
  unfold handleMouseMove
  split_ifs <;> (try split) <;> exact ⟨rfl, rfl, rfl, rfl⟩

/-- Any sequence of pointer movements preserves the history, the pending
snapshot and the gesture flags. -/
theorem foldl_mouseMove_frame (moves : List (ℚ × ℚ)) :
    ∀ t : AlignerState,
      ((moves.foldl (fun u p => handleMouseMove u p.1 p.2) t).history = t.history ∧
       (moves.foldl (fun u p => handleMouseMove u p.1 p.2) t).pendingUndoState =
         t.pendingUndoState ∧
       (moves.foldl (fun u p => handleMouseMove u p.1 p.2) t).isDragging = t.isDragging ∧
       (moves.foldl (fun u p => handleMouseMove u p.1 p.2) t).isResizing = t.isResizing) := by
  induction moves with
  | nil => intro t; exact ⟨rfl, rfl, rfl, rfl⟩
  | cons p ps ih =>
      intro t
      obtain ⟨h1, h2, h3, h4⟩ := ih (handleMouseMove t p.1 p.2)
      obtain ⟨g1, g2, g3, g4⟩ := handleMouseMove_gesture_frame t p.1 p.2
      exact ⟨h1.trans g1, h2.trans g2, h3.trans g3, h4.trans g4⟩

/-- A wizard click never touches the history stack. -/
theorem wizardClick_history (s : AlignerState) (lx ly : ℚ) :
    (handleAlignModalCanvasClick s lx ly).history = s.history := by
  unfold handleAlignModalCanvasClick
  split
  · rfl
  · split
    · rfl
    · dsimp only
      split_ifs <;> rfl

/-- C3 counterexample: recording a wizard reference point takes no
checkpoint, so undoing right after a wizard click restores the snapshot of
the checkpointed mutation before it (here: the empty list pushed by the
import), not the pre-click layer list. -/
theorem wizard_click_undo_counterexample :
    (undo (handleAlignModalCanvasClick wizardState (1/2) (1/2))).layers ≠
      wizardState.layers := by
  have hh : (handleAlignModalCanvasClick wizardState (1/2) (1/2)).history = [[]] :=
    (wizardClick_history wizardState (1/2) (1/2)).trans rfl
  have hu : (undo (handleAlignModalCanvasClick wizardState (1/2) (1/2))).layers = [] := by
    unfold undo
    rw [hh]
    rfl
  rw [hu]
  simp [wizardState, initialState, layerA]

/-- C3 amended: undo is a strict inverse of every checkpointed mutation --
add, neighbour swap, reorder, visibility toggle, remove-selected, the
auto-align batch, and a completed drag or resize gesture of any length --
restoring the exact pre-mutation layer sequence (refs and visibility
included, since snapshots are deep copies).  Wizard reference-point writes
are excluded: they take no checkpoint (the original claim fails there, see
the counterexample). -/
theorem undo_inverts_mutations (s : AlignerState) (files : List ImageLayer)
    (index : Nat) (d : MoveDir) (i j : Nat) (layerId gid : Nat) (cx cy : ℚ)
    (handle : Handle) (moves : List (ℚ × ℚ)) :
    (files ≠ [] → (undo (addImages s files)).layers = s.layers) ∧
    (¬ (moveTarget index d < 0 ∨ (s.layers.length : Int) ≤ moveTarget index d) →
      (undo (handleMoveLayer s index d)).layers = s.layers) ∧
    (i ≠ j → (undo (handleLayerReorder s i j)).layers = s.layers) ∧
    ((undo (handleToggleLayerVisibility s layerId)).layers = s.layers) ∧
    (s.selectedId ≠ none → (undo (handleRemoveLayer s)).layers = s.layers) ∧
    (2 ≤ s.layers.length → (undo (runAutoAlign s)).layers = s.layers) ∧
    (s.alignModalOpen = false → (s.layers.find? (fun l => l.id == gid)).isSome = true →
      (undo (handleMouseUp (moves.foldl (fun u p => handleMouseMove u p.1 p.2)
        (handleLayerMouseDown s gid cx cy)))).layers = s.layers) ∧
    ((s.layers.find? (fun l => l.id == gid)).isSome = true →
      (undo (handleMouseUp (moves.foldl (fun u p => handleMouseMove u p.1 p.2)
        (handleResizeMouseDown s gid handle cx cy)))).layers = s.layers) := by
  refine ⟨?_, ?_, ?_, ?_, ?_, ?_, ?_, ?_⟩
  · intro hf
    cases files with
    | nil => exact absurd rfl hf
    | cons a as => exact undo_layers_eq _ _ s.history rfl
  · intro hg
    apply undo_layers_eq _ _ s.history
    unfold handleMoveLayer
    simp only []
    rw [if_neg hg]
    rfl
  · intro hij
    apply undo_layers_eq _ _ s.history
    unfold handleLayerReorder
    rw [if_neg hij]
    simp only []
    split <;> rfl
  · exact undo_layers_eq _ _ s.history rfl
  · intro hsel
    apply undo_layers_eq _ _ s.history
    unfold handleRemoveLayer
    cases hv : s.selectedId with
    | none => exact absurd hv hsel
    | some sel => rfl
  · intro h2
    apply undo_layers_eq _ _ s.history
    unfold runAutoAlign
    rw [if_neg (by omega)]
    rfl
  · intro hopen hfind
    obtain ⟨layer, hlayer⟩ := Option.isSome_iff_exists.mp hfind
    have h0 : (handleLayerMouseDown s gid cx cy).history = s.history ∧
        (handleLayerMouseDown s gid cx cy).pendingUndoState = some s.layers ∧
        (handleLayerMouseDown s gid cx cy).isDragging = true := by
      unfold handleLayerMouseDown
      rw [hopen, hlayer]
      exact ⟨rfl, rfl, rfl⟩
    obtain ⟨f1, f2, f3, _⟩ := foldl_mouseMove_frame moves (handleLayerMouseDown s gid cx cy)
    apply undo_layers_eq _ _ s.history
    unfold handleMouseUp
    rw [f3, h0.2.2]
    simp only [Bool.true_or]
    rw [f2, h0.2.1]
    simp only []
    rw [f1, h0.1]
    rw [if_pos trivial]
  · intro hfind
    obtain ⟨layer, hlayer⟩ := Option.isSome_iff_exists.mp hfind
    have h0 : (handleResizeMouseDown s gid handle cx cy).history = s.history ∧
        (handleResizeMouseDown s gid handle cx cy).pendingUndoState = some s.layers ∧
        (handleResizeMouseDown s gid handle cx cy).isResizing = true := by
      unfold handleResizeMouseDown
      rw [hlayer]
      exact ⟨rfl, rfl, rfl⟩
    obtain ⟨f1, f2, _, f4⟩ := foldl_mouseMove_frame moves
      (handleResizeMouseDown s gid handle cx cy)
    apply undo_layers_eq _ _ s.history
    unfold handleMouseUp
    rw [f4, h0.2.2]
    simp only [Bool.or_true]
    rw [f2, h0.2.1]
    simp only []
    rw [f1, h0.1]
    rw [if_pos trivial]

/-- Witness for C3's amended theorem: every checkpointed mutation on the
concrete two-layer state, followed by undo, restores the layer list. -/
theorem undo_inverts_mutations_witness :
    (undo (addImages gestureState [layerA])).layers = gestureState.layers ∧
    (undo (handleMoveLayer gestureState 0 MoveDir.up)).layers = gestureState.layers ∧
    (undo (handleLayerReorder gestureState 0 1)).layers = gestureState.layers ∧
    (undo (handleToggleLayerVisibility gestureState 1)).layers = gestureState.layers ∧
    (undo (handleRemoveLayer gestureState)).layers = gestureState.layers ∧
    (undo (runAutoAlign gestureState)).layers = gestureState.layers ∧
    (undo (handleMouseUp ([((5 : ℚ), (5 : ℚ))].foldl (fun u p => handleMouseMove u p.1 p.2)
      (handleLayerMouseDown gestureState 1 3 4)))).layers = gestureState.layers ∧
    (undo (handleMouseUp ([((5 : ℚ), (5 : ℚ))].foldl (fun u p => handleMouseMove u p.1 p.2)
      (handleResizeMouseDown gestureState 1 Handle.se 3 4)))).layers = gestureState.layers := by
  obtain ⟨c1, c2, c3, c4, c5, c6, c7, c8⟩ :=
    undo_inverts_mutations gestureState [layerA] 0 MoveDir.up 0 1 1 1 3 4 Handle.se [(5, 5)]
  exact ⟨c1 (by decide), c2 (by decide), c3 (by decide), c4, c5 (by decide),
    c6 (by decide), c7 rfl (by decide), c8 (by decide)⟩

/-- Every event either leaves the history alone, pushes one snapshot with
overflow eviction, or pops the newest entry (undo). -/
theorem stepOp_history_cases (s : AlignerState) (op : AlignerOp) :
    (stepOp s op).history = s.history ∨
    (∃ snap, (stepOp s op).history = pushHistoryList s.history snap) ∨
    (stepOp s op).history = s.history.dropLast := by
  cases op with
  | add files =>
      cases files with
      | nil => exact Or.inl rfl
      | cons a as => exact Or.inr (Or.inl ⟨s.layers, rfl⟩)
  | move index d =>
      simp only [stepOp]
      unfold handleMoveLayer
      simp only []
      split_ifs
      · exact Or.inl rfl
      · exact Or.inr (Or.inl ⟨s.layers, rfl⟩)
  | reorder i j =>
      simp only [stepOp]
      unfold handleLayerReorder
      split_ifs
      · exact Or.inl rfl
      · simp only []
        split
        · exact Or.inr (Or.inl ⟨s.layers, rfl⟩)
        · exact Or.inr (Or.inl ⟨s.layers, rfl⟩)
  | toggleVisibility layerId => exact Or.inr (Or.inl ⟨s.layers, rfl⟩)
  | removeSelected =>
      simp only [stepOp]
      unfold handleRemoveLayer
      cases hv : s.selectedId with
      | none => exact Or.inl rfl
      | some sel => exact Or.inr (Or.inl ⟨s.layers, rfl⟩)
  | canvasClick => exact Or.inl rfl
  | layerClick id =>
      simp only [stepOp]
      unfold handleLayerClick
      split_ifs <;> exact Or.inl rfl
  | layerMouseDown id cx cy =>
      simp only [stepOp]
      unfold handleLayerMouseDown
      split_ifs
      · exact Or.inl rfl
      · split <;> exact Or.inl rfl
  | resizeMouseDown id handle cx cy =>
      simp only [stepOp]
      unfold handleResizeMouseDown
      split <;> exact Or.inl rfl
  | mouseMove cx cy => exact Or.inl (handleMouseMove_gesture_frame s cx cy).1
  | mouseUp =>
      simp only [stepOp]
      unfold handleMouseUp
      simp only []
      split_ifs
      · split
        · exact Or.inr (Or.inl ⟨_, rfl⟩)
        · exact Or.inl rfl
      · exact Or.inl rfl
  | wizardOpen =>
      simp only [stepOp]
      unfold handleAutoAlignClick
      split_ifs <;> exact Or.inl rfl
  | wizardClick lx ly => exact Or.inl (wizardClick_history s lx ly)
  | wizardNext =>
      simp only [stepOp]
      unfold handleAlignModalNext
      split_ifs <;> exact Or.inl rfl
  | wizardPrev =>
      simp only [stepOp]
      unfold handleAlignModalPrev
      split_ifs <;> exact Or.inl rfl
  | autoAlign =>
      simp only [stepOp]
      unfold runAutoAlign
      simp only []
      split_ifs
      · exact Or.inl rfl
      · exact Or.inr (Or.inl ⟨s.layers, rfl⟩)
      · exact Or.inr (Or.inl ⟨s.layers, rfl⟩)
  | undoOp =>
      simp only [stepOp]
      unfold undo
      split
      · exact Or.inl rfl
      · exact Or.inr (Or.inr rfl)

/-- One event keeps the history within capacity. -/
theorem stepOp_history_le (s : AlignerState) (op : AlignerOp)
    (h : s.history.length ≤ MAX_HISTORY) :
    ((stepOp s op).history).length ≤ MAX_HISTORY := by
  rcases stepOp_history_cases s op with h1 | ⟨snap, h1⟩ | h1 <;> rw [h1]
  · exact h
  · exact length_pushHistoryList_le _ _ h
  · rw [List.length_dropLast]; omega

/-- Any event sequence keeps the history within capacity. -/
theorem foldl_stepOp_history_le :
    ∀ (ops : List AlignerOp) (s : AlignerState), s.history.length ≤ MAX_HISTORY →
      ((ops.foldl stepOp s).history).length ≤ MAX_HISTORY
  | [], _, h => h
  | op :: ops, s, h => foldl_stepOp_history_le ops (stepOp s op) (stepOp_history_le s op h)

/-- C4: from the initial state, no sequence of events ever grows the history
stack past 50 snapshots; and a push onto a full stack evicts exactly the
oldest entry and appends the new snapshot (FIFO eviction). -/
theorem history_bounded :
    (∀ ops : List AlignerOp, ((ops.foldl stepOp initialState).history).length ≤ MAX_HISTORY) ∧
    (∀ (h : List (List ImageLayer)) (snap : List ImageLayer), h.length = MAX_HISTORY →
      pushHistoryList h snap = h.tail ++ [snap]) := by
  constructor
  · intro ops
    exact foldl_stepOp_history_le ops initialState (by decide)
  · intro h snap hfull
    unfold pushHistoryList
    simp only []
    rw [if_pos]
    · cases h with
      | nil => simp [MAX_HISTORY] at hfull
      | cons a t => rfl
    · simp only [List.length_append, List.length_singleton]
      omega

/-- Witness for C4: a sequence of 60 events stays within the bound, and a
push onto a concrete full 50-entry stack drops its head. -/
theorem history_bounded_witness :
    ((List.replicate 60 AlignerOp.mouseUp).foldl stepOp initialState).history.length ≤
      MAX_HISTORY ∧
    ((List.replicate 50 ([] : List ImageLayer)).length = MAX_HISTORY ∧
      pushHistoryList (List.replicate 50 []) [] =
        (List.replicate 50 ([] : List ImageLayer)).tail ++ [[]]) :=
  ⟨history_bounded.1 _, by decide, history_bounded.2 _ _ (by decide)⟩

/-- The indexed map preserves length. -/
theorem alignAll_length (rc : RefComputed) :
    ∀ (idx : Nat) (ls : List ImageLayer), (alignAll rc idx ls).length = ls.length
  | _, [] => rfl
  | idx, _ :: ls => by simp [alignAll, alignAll_length rc (idx + 1) ls]

/-- Element lookup through the indexed map. -/
theorem alignAll_get? (rc : RefComputed) :
    ∀ (idx : Nat) (ls : List ImageLayer) (i : Nat),
      (alignAll rc idx ls).get? i = (ls.get? i).map (fun l => alignOne rc (idx + i) l)
  | _, [], i => by simp [alignAll]
  | idx, l :: ls, 0 => by simp [alignAll]
  | idx, l :: ls, i + 1 => by
      simp only [alignAll, List.get?_cons_succ]
      rw [alignAll_get? rc (idx + 1) ls i]
      have harith : idx + 1 + i = idx + (i + 1) := by omega
      rw [harith]

/-- Reference layer and degenerately-marked layers pass through `alignOne`
untouched and unflagged. -/
theorem alignOne_skip (rc : RefComputed) (idx : Nat) (layer : ImageLayer)
    (hskip : idx = 0 ∨ |(refsOf layer).eyeRightX - (refsOf layer).eyeLeftX| < 1/100 ∨
      |(refsOf layer).faceBottomY - (refsOf layer).bodyTopY| < 1/100) :
    alignOne rc idx layer = (layer, none) := by
  unfold alignOne
  rcases hskip with h | h | h
  · rw [if_pos h]
  · by_cases h0 : idx = 0
    · rw [if_pos h0]
    · rw [if_neg h0]
      simp only []
      rw [if_pos h]
  · by_cases h0 : idx = 0
    · rw [if_pos h0]
    · rw [if_neg h0]
      simp only []
      by_cases hdx : |(refsOf layer).eyeRightX - (refsOf layer).eyeLeftX| < 1/100
      · rw [if_pos hdx]
      · rw [if_neg hdx, if_pos h]

/-- A warning produced at index `idx` always names layer number `idx + 1`. -/
theorem alignOne_snd_eq (rc : RefComputed) (idx : Nat) (layer : ImageLayer) (m : Nat) :
    (alignOne rc idx layer).2 = some m → m = idx + 1 := by
  unfold alignOne
  simp only []
  split_ifs <;> intro h <;> simp_all

/-- Every collected warning comes from some layer position. -/
theorem alignAll_warn_mem (rc : RefComputed) :
    ∀ (idx : Nat) (ls : List ImageLayer) (m : Nat),
      m ∈ (alignAll rc idx ls).filterMap Prod.snd →
      ∃ j layer, ls.get? j = some layer ∧ (alignOne rc (idx + j) layer).2 = some m
  | _, [], m => by simp [alignAll]
  | idx, l :: ls, m => by
      intro hm
      rw [alignAll, List.filterMap_cons] at hm
      cases hsnd : (alignOne rc idx l).2 with
      | none =>
          rw [hsnd] at hm
          obtain ⟨j, layer, hj, hsome⟩ := alignAll_warn_mem rc (idx + 1) ls m hm
          refine ⟨j + 1, layer, hj, ?_⟩
          have harith : idx + (j + 1) = idx + 1 + j := by omega
          rw [harith]
          exact hsome
      | some w =>
          rw [hsnd] at hm
          rcases List.mem_cons.mp hm with h | h
          · subst h
            exact ⟨0, l, rfl, by rw [Nat.add_zero]; exact hsnd⟩
          · obtain ⟨j, layer, hj, hsome⟩ := alignAll_warn_mem rc (idx + 1) ls m h
            refine ⟨j + 1, layer, hj, ?_⟩
            have harith : idx + (j + 1) = idx + 1 + j := by omega
            rw [harith]
            exact hsome

/-- `alignOne` only rewrites geometry: identity, image handle, aspect ratio,
visibility and refs always pass through. -/
theorem alignOne_fst_frame (rc : RefComputed) (idx : Nat) (layer : ImageLayer) :
    (alignOne rc idx layer).1.id = layer.id ∧
    (alignOne rc idx layer).1.src = layer.src ∧
    (alignOne rc idx layer).1.aspectRatio = layer.aspectRatio ∧
    (alignOne rc idx layer).1.visible = layer.visible ∧
    (alignOne rc idx layer).1.refs = layer.refs := by
  unfold alignOne
  simp only []
  split_ifs <;> exact ⟨rfl, rfl, rfl, rfl, rfl⟩

/-- What runAutoAlign does above the two-layer guard, as one record
equation. -/
theorem runAutoAlign_eq (s : AlignerState) (hlt : ¬ s.layers.length < 2) :
    runAutoAlign s = { s with
      layers := (runAutoAlignCore s.layers).1,
      alignWarning := if (runAutoAlignCore s.layers).2.isEmpty then none
        else some (runAutoAlignCore s.layers).2,
      canUndo := true,
      history := pushHistoryList s.history s.layers,
      alignModalOpen := false } := by
  unfold runAutoAlign
  rw [if_neg hlt]
  rfl

/-- The solved geometry places the layer's own landmarks exactly on the
reference canvas positions: the eye-center fraction maps to
`refEyeCenterX` (for any v, since the mapped x ignores v) and the
body/face-mid fraction maps to `refBodyFaceMidY` (for any u), in whichever
letterbox branch the new geometry falls. -/
theorem alignOne_lands (rc : RefComputed) (idx : Nat) (layer : ImageLayer) (u v : ℚ)
    (h0 : idx ≠ 0)
    (hdx : ¬ |(refsOf layer).eyeRightX - (refsOf layer).eyeLeftX| < 1/100)
    (hdy : ¬ |(refsOf layer).faceBottomY - (refsOf layer).bodyTopY| < 1/100) :
    (imageToCanvas (alignOne rc idx layer).1
        (((refsOf layer).eyeLeftX + (refsOf layer).eyeRightX) / 2) v).x = rc.refEyeCenterX ∧
    (imageToCanvas (alignOne rc idx layer).1 u
        (((refsOf layer).bodyTopY + (refsOf layer).faceBottomY) / 2)).y = rc.refBodyFaceMidY := by
  unfold alignOne
  rw [if_neg h0]
  simp only []
  rw [if_neg hdx, if_neg hdy]
  unfold imageToCanvas
  constructor <;>
  · dsimp only
    split_ifs <;> ring

/-- `refEyeCenterX` is the midpoint of the reference layer's two eye canvas
x-positions, by definition. -/
theorem computeRef_refEyeCenterX (l : ImageLayer) :
    (computeRef l).refEyeCenterX =
      ((imageToCanvas l (refsOf l).eyeLeftX (refsOf l).eyeLeftY).x +
       (imageToCanvas l (refsOf l).eyeRightX (refsOf l).eyeRightY).x) / 2 := rfl

/-- `refBodyFaceMidY` is the midpoint of the reference layer's body-top and
face-bottom canvas y-positions, by definition. -/
theorem computeRef_refBodyFaceMidY (l : ImageLayer) :
    (computeRef l).refBodyFaceMidY =
      ((imageToCanvas l (1/2) (refsOf l).bodyTopY).y +
       (imageToCanvas l (1/2) (refsOf l).faceBottomY).y) / 2 := rfl

/-- C1: after runAutoAlign on at least two layers, every non-reference layer
that is not skipped as degenerate has its own eye-center landmark mapped by
imageToCanvas exactly onto the midpoint of the reference layer's eye canvas
x-positions, and its body/face-mid landmark exactly onto the midpoint of
the reference layer's body-top and face-bottom canvas y-positions. -/
theorem runAutoAlign_lands (s : AlignerState) (h2 : 2 ≤ s.layers.length)
    (refLayer layer : ImageLayer) (i : Nat)
    (href : s.layers.get? 0 = some refLayer)
    (hget : s.layers.get? (i + 1) = some layer)
    (hdx : ¬ |(refsOf layer).eyeRightX - (refsOf layer).eyeLeftX| < 1/100)
    (hdy : ¬ |(refsOf layer).faceBottomY - (refsOf layer).bodyTopY| < 1/100) :
    ∃ out, (runAutoAlign s).layers.get? (i + 1) = some out ∧
      (imageToCanvas out (((refsOf layer).eyeLeftX + (refsOf layer).eyeRightX) / 2)
          (((refsOf layer).eyeLeftY + (refsOf layer).eyeRightY) / 2)).x =
        ((imageToCanvas refLayer (refsOf refLayer).eyeLeftX (refsOf refLayer).eyeLeftY).x +
         (imageToCanvas refLayer (refsOf refLayer).eyeRightX (refsOf refLayer).eyeRightY).x) / 2 ∧
      (imageToCanvas out (1/2)
          (((refsOf layer).bodyTopY + (refsOf layer).faceBottomY) / 2)).y =
        ((imageToCanvas refLayer (1/2) (refsOf refLayer).bodyTopY).y +
         (imageToCanvas refLayer (1/2) (refsOf refLayer).faceBottomY).y) / 2 := by
  have hlt : ¬ s.layers.length < 2 := by omega
  rw [runAutoAlign_eq s hlt]
  dsimp only
  cases hl : s.layers with
  | nil => rw [hl] at href; simp at href
  | cons a rest =>
      rw [hl] at href
      have ha : a = refLayer := by simpa using href
      subst ha
      rw [hl] at hget
      refine ⟨(alignOne (computeRef a) (i + 1) layer).1, ?_, ?_, ?_⟩
      · show ((alignAll (computeRef a) 0 (a :: rest)).map Prod.fst).get? (i + 1) = _
        rw [List.get?_map, alignAll_get? (computeRef a) 0 (a :: rest) (i + 1), hget]
        simp
      · rw [← computeRef_refEyeCenterX]
        exact (alignOne_lands (computeRef a) (i + 1) layer (1/2)
          (((refsOf layer).eyeLeftY + (refsOf layer).eyeRightY) / 2)
          (by omega) hdx hdy).1
      · rw [← computeRef_refBodyFaceMidY]
        exact (alignOne_lands (computeRef a) (i + 1) layer (1/2)
          (((refsOf layer).eyeLeftY + (refsOf layer).eyeRightY) / 2)
          (by omega) hdx hdy).2

/-- C7: with at least two layers, runAutoAlign returns the reference layer
(index 0) unchanged, and returns every non-reference layer whose refs have
an eye span or a body/face span below the 0.01 threshold entirely unchanged
(geometry included), contributing no warning for it -- a silent skip, and
there is no error path at all in the solver. -/
theorem runAutoAlign_skips_degenerate (s : AlignerState) (h2 : 2 ≤ s.layers.length)
    (i : Nat) (layer : ImageLayer) (hget : s.layers.get? i = some layer)
    (hskip : i = 0 ∨ |(refsOf layer).eyeRightX - (refsOf layer).eyeLeftX| < 1/100 ∨
      |(refsOf layer).faceBottomY - (refsOf layer).bodyTopY| < 1/100) :
    (runAutoAlign s).layers.get? i = some layer ∧
    ∀ w ∈ ((runAutoAlign s).alignWarning.getD []), w ≠ i + 1 := by
  have hlt : ¬ s.layers.length < 2 := by omega
  rw [runAutoAlign_eq s hlt]
  dsimp only
  constructor
  · cases hl : s.layers with
    | nil => rw [hl] at hget; simp at hget
    | cons a rest =>
        rw [hl] at hget
        show ((alignAll (computeRef a) 0 (a :: rest)).map Prod.fst).get? i = _
        rw [List.get?_map, alignAll_get? (computeRef a) 0 (a :: rest) i, hget]
        simp [alignOne_skip (computeRef a) i layer hskip]
  · intro w hw
    by_cases he : (runAutoAlignCore s.layers).2.isEmpty
    · rw [if_pos he] at hw
      simp at hw
    · rw [if_neg he] at hw
      simp only [Option.getD_some] at hw
      cases hl : s.layers with
      | nil => rw [hl] at hget; simp at hget
      | cons a rest =>
          rw [hl] at hw hget
          intro hwi
          subst hwi
          obtain ⟨j, layer', hj, hsome⟩ :=
            alignAll_warn_mem (computeRef a) 0 (a :: rest) (i + 1) hw
          have hji : j = i := by
            have := alignOne_snd_eq (computeRef a) (0 + j) layer' (i + 1) hsome
            omega
          subst hji
          rw [hget] at hj
          have hlayer : layer' = layer := by injection hj.symm
          subst hlayer
          rw [Nat.zero_add, alignOne_skip (computeRef a) j layer' hskip] at hsome
          simp at hsome

/-- C8: runAutoAlign on fewer than two layers is a complete no-op: the whole
state -- layers, history stack and warning output included -- is returned
unchanged. -/
theorem runAutoAlign_noop_below_two (s : AlignerState) (h : s.layers.length < 2) :
    runAutoAlign s = s := by
  unfold runAutoAlign
  rw [if_pos h]

/-- C10: runAutoAlign keeps the number and order of layers, and for every
layer only x, y, width and height can change: id, src, aspectRatio, visible
and refs are preserved. -/
theorem runAutoAlign_frame (s : AlignerState) :
    (runAutoAlign s).layers.length = s.layers.length ∧
    ∀ i layer, s.layers.get? i = some layer →
      ∃ out, (runAutoAlign s).layers.get? i = some out ∧
        out.id = layer.id ∧ out.src = layer.src ∧ out.aspectRatio = layer.aspectRatio ∧
        out.visible = layer.visible ∧ out.refs = layer.refs := by
  by_cases hlt : s.layers.length < 2
  · have heq : runAutoAlign s = s := by
      unfold runAutoAlign
      rw [if_pos hlt]
    rw [heq]
    exact ⟨rfl, fun i layer hget => ⟨layer, hget, rfl, rfl, rfl, rfl, rfl⟩⟩
  · rw [runAutoAlign_eq s hlt]
    dsimp only
    cases hl : s.layers with
    | nil => simp [runAutoAlignCore]
    | cons a rest =>
        constructor
        · show ((alignAll (computeRef a) 0 (a :: rest)).map Prod.fst).length = _
          rw [List.length_map, alignAll_length]
        · intro i layer hget
          refine ⟨(alignOne (computeRef a) i layer).1, ?_, ?_⟩
          · show ((alignAll (computeRef a) 0 (a :: rest)).map Prod.fst).get? i = _
            rw [List.get?_map, alignAll_get? (computeRef a) 0 (a :: rest) i, hget]
            simp
          · exact alignOne_fst_frame (computeRef a) i layer

/-- Either the click's guard failed (no change at all), or the layer list is
rewritten by a map that touches only the refs of layers sharing the current
wizard layer's id. -/
theorem wizardClick_layers (s : AlignerState) (lx ly : ℚ) :
    (handleAlignModalCanvasClick s lx ly).layers = s.layers ∨
    (∃ cur, s.layers.get? s.alignModalLayerIndex = some cur ∧
      (handleAlignModalCanvasClick s lx ly).layers = s.layers.map (fun l =>
        if l.id == cur.id then
          { l with refs := some (applyStep s.alignModalStep
              (max 0 (min 1 lx)) (max 0 (min 1 ly)) (refsOf l)) }
        else l)) := by
  unfold handleAlignModalCanvasClick
  split_ifs with h
  · exact Or.inl rfl
  · cases hc : s.layers.get? s.alignModalLayerIndex with
    | none => exact Or.inl rfl
    | some cur =>
        right
        refine ⟨cur, rfl, ?_⟩
        dsimp only
        split_ifs <;> rfl

/-- With the wizard open and the indexed layer present, the click rewrites
the layer list by the refs-only map. -/
theorem wizardClick_layers_open (s : AlignerState) (lx ly : ℚ) (cur : ImageLayer)
    (hopen : s.alignModalOpen = true)
    (hcur : s.layers.get? s.alignModalLayerIndex = some cur) :
    (handleAlignModalCanvasClick s lx ly).layers = s.layers.map (fun l =>
      if l.id == cur.id then
        { l with refs := some (applyStep s.alignModalStep
            (max 0 (min 1 lx)) (max 0 (min 1 ly)) (refsOf l)) }
      else l) := by
  unfold handleAlignModalCanvasClick
  rw [hopen, if_neg (by simp), hcur]
  dsimp only
  split_ifs <;> rfl

/-- C9: a wizard click never changes the number or order of layers, never
changes any layer's id, geometry (x, y, width, height, aspectRatio) or
visibility; when layer ids are distinct it changes nothing at all on any
layer other than the one at the current wizard index, and that layer's refs
record (lazily defaulted) receives exactly the current step's write of the
clamped-to-[0,1] click position. -/
theorem wizard_click_frame (s : AlignerState) (lx ly : ℚ) :
    (handleAlignModalCanvasClick s lx ly).layers.length = s.layers.length ∧
    (∀ i layer, s.layers.get? i = some layer →
      ∃ out, (handleAlignModalCanvasClick s lx ly).layers.get? i = some out ∧
        out.id = layer.id ∧ out.x = layer.x ∧ out.y = layer.y ∧
        out.width = layer.width ∧ out.height = layer.height ∧
        out.aspectRatio = layer.aspectRatio ∧ out.visible = layer.visible) ∧
    ((s.layers.map ImageLayer.id).Nodup →
      ∀ i layer, i ≠ s.alignModalLayerIndex → s.layers.get? i = some layer →
        (handleAlignModalCanvasClick s lx ly).layers.get? i = some layer) ∧
    (s.alignModalOpen = true →
      ∀ cur, s.layers.get? s.alignModalLayerIndex = some cur →
        (handleAlignModalCanvasClick s lx ly).layers.get? s.alignModalLayerIndex =
          some { cur with refs := some (applyStep s.alignModalStep
            (max 0 (min 1 lx)) (max 0 (min 1 ly)) (refsOf cur)) }) := by
  have hwrite : s.alignModalOpen = true →
      ∀ cur, s.layers.get? s.alignModalLayerIndex = some cur →
        (handleAlignModalCanvasClick s lx ly).layers.get? s.alignModalLayerIndex =
          some { cur with refs := some (applyStep s.alignModalStep
            (max 0 (min 1 lx)) (max 0 (min 1 ly)) (refsOf cur)) } := by
    intro hopen cur hcur
    rw [wizardClick_layers_open s lx ly cur hopen hcur]
    rw [List.get?_map, hcur]
    simp
  rcases wizardClick_layers s lx ly with heq | ⟨cur, hcur, heq⟩
  · exact ⟨by rw [heq],
      fun i layer hget =>
        ⟨layer, by rw [heq]; exact hget, rfl, rfl, rfl, rfl, rfl, rfl, rfl⟩,
      fun _ i layer _ hget => by rw [heq]; exact hget, hwrite⟩
  · refine ⟨?_, ?_, ?_, hwrite⟩
    · rw [heq]
      exact List.length_map _ _
    · intro i layer hget
      rw [heq, List.get?_map, hget]
      refine ⟨_, rfl, ?_⟩
      dsimp only
      split_ifs <;> exact ⟨rfl, rfl, rfl, rfl, rfl, rfl, rfl⟩
    · intro hnodup i layer hi hget
      rw [heq, List.get?_map, hget]
      have hne : layer.id ≠ cur.id := by
        intro hid
        apply hi
        have h1 : (s.layers.map ImageLayer.id).get? i = some layer.id := by
          rw [List.get?_map, hget]; rfl
        have h2 : (s.layers.map ImageLayer.id).get? s.alignModalLayerIndex =
            some cur.id := by
          rw [List.get?_map, hcur]; rfl
        have hlen : i < (s.layers.map ImageLayer.id).length := by
          rcases List.get?_eq_some.mp h1 with ⟨hlt, _⟩
          exact hlt
        exact List.get?_inj hlen hnodup (by rw [h1, h2, hid])
      have hbeq : (layer.id == cur.id) = false := by simpa using hne
      simp [hbeq]
      exact fun h => absurd h hne

/-- Witness for C1: aligning the concrete two-layer state (both with default
refs) and checking both landing equations for layer 1. -/
theorem runAutoAlign_lands_witness :
    ∃ out, (runAutoAlign gestureState).layers.get? (0 + 1) = some out ∧
      (imageToCanvas out (((refsOf layerB).eyeLeftX + (refsOf layerB).eyeRightX) / 2)
          (((refsOf layerB).eyeLeftY + (refsOf layerB).eyeRightY) / 2)).x =
        ((imageToCanvas layerA (refsOf layerA).eyeLeftX (refsOf layerA).eyeLeftY).x +
         (imageToCanvas layerA (refsOf layerA).eyeRightX (refsOf layerA).eyeRightY).x) / 2 ∧
      (imageToCanvas out (1/2)
          (((refsOf layerB).bodyTopY + (refsOf layerB).faceBottomY) / 2)).y =
        ((imageToCanvas layerA (1/2) (refsOf layerA).bodyTopY).y +
         (imageToCanvas layerA (1/2) (refsOf layerA).faceBottomY).y) / 2 :=
  runAutoAlign_lands gestureState (by decide) layerA layerB 0 rfl rfl
    (by
      show ¬ |(13/20 : ℚ) - 7/20| < 1/100
      rw [show (13/20 : ℚ) - 7/20 = 3/10 by norm_num]
      rw [abs_of_nonneg (by norm_num : (0 : ℚ) ≤ 3/10)]
      norm_num)
    (by
      show ¬ |(1/2 : ℚ) - 1/5| < 1/100
      rw [show (1/2 : ℚ) - 1/5 = 3/10 by norm_num]
      rw [abs_of_nonneg (by norm_num : (0 : ℚ) ≤ 3/10)]
      norm_num)

/-- Witness for C7: on the concrete state, the reference layer and the
degenerate layer both come back unchanged and unwarned. -/
theorem runAutoAlign_skips_degenerate_witness :
    ((runAutoAlign degenState).layers.get? 0 = some layerA ∧
      ∀ w ∈ ((runAutoAlign degenState).alignWarning.getD []), w ≠ 0 + 1) ∧
    ((runAutoAlign degenState).layers.get? 1 = some degenerateLayer ∧
      ∀ w ∈ ((runAutoAlign degenState).alignWarning.getD []), w ≠ 1 + 1) :=
  ⟨runAutoAlign_skips_degenerate degenState (by decide) 0 layerA rfl (Or.inl rfl),
   runAutoAlign_skips_degenerate degenState (by decide) 1 degenerateLayer rfl
     (Or.inr (Or.inl (by
        show |(1/2 : ℚ) - 1/2| < 1/100
        rw [show (1/2 : ℚ) - 1/2 = 0 by norm_num, abs_zero]
        norm_num)))⟩

/-- Witness for C8: on the concrete one-layer state, runAutoAlign returns
the state unchanged. -/
theorem runAutoAlign_noop_below_two_witness :
    singleState.layers.length < 2 ∧ runAutoAlign singleState = singleState :=
  ⟨by decide, runAutoAlign_noop_below_two singleState (by decide)⟩

/-- Witness for C9: an out-of-range click on the concrete wizard state keeps
the layer count, keeps layer 1's identity/geometry/visibility, and leaves
layer 1 (not the wizard's current layer) entirely unchanged. -/
theorem wizard_click_frame_witness :
    (handleAlignModalCanvasClick wizardState2 2 (-1)).layers.length =
      wizardState2.layers.length ∧
    (∃ out, (handleAlignModalCanvasClick wizardState2 2 (-1)).layers.get? 1 = some out ∧
      out.id = layerB.id ∧ out.x = layerB.x ∧ out.y = layerB.y ∧
      out.width = layerB.width ∧ out.height = layerB.height ∧
      out.aspectRatio = layerB.aspectRatio ∧ out.visible = layerB.visible) ∧
    (handleAlignModalCanvasClick wizardState2 2 (-1)).layers.get? 1 = some layerB ∧
    (handleAlignModalCanvasClick wizardState2 2 (-1)).layers.get?
        wizardState2.alignModalLayerIndex =
      some { layerA with refs := some (applyStep wizardState2.alignModalStep
        (max 0 (min 1 2)) (max 0 (min 1 (-1))) (refsOf layerA)) } :=
  ⟨(wizard_click_frame wizardState2 2 (-1)).1,
   (wizard_click_frame wizardState2 2 (-1)).2.1 1 layerB rfl,
   (wizard_click_frame wizardState2 2 (-1)).2.2.1 (by decide) 1 layerB (by decide) rfl,
   (wizard_click_frame wizardState2 2 (-1)).2.2.2 rfl layerA rfl⟩

/-- Witness for C10: aligning the concrete two-layer state preserves the
layer count and layer 1's non-geometry fields. -/
theorem runAutoAlign_frame_witness :
    (runAutoAlign gestureState).layers.length = gestureState.layers.length ∧
    (∃ out, (runAutoAlign gestureState).layers.get? 1 = some out ∧
      out.id = layerB.id ∧ out.src = layerB.src ∧ out.aspectRatio = layerB.aspectRatio ∧
      out.visible = layerB.visible ∧ out.refs = layerB.refs) :=
  ⟨(runAutoAlign_frame gestureState).1, (runAutoAlign_frame gestureState).2 1 layerB rfl⟩
